import Mathlib

/-!
Verification of the ProjectIQ frontend core (submission assembler in
`src/frontend/src/pages/components/Form/Form.jsx` and the result poller
`Verify.jsx` component): a shallow embedding of the form state, the
`handleSubmit` / `validateFile` / `toggleTech` handlers, and an event-loop
small-step semantics of the `setInterval`-driven poll loop, together with
theorems settling the specification's claims about them.
-/

/-! ## String primitives (models of the JavaScript string methods used) -/

/-- Model of `a.startsWith(b)` at the character-list level: `leadChars p l`
holds when `p` is an initial segment of `l`. -/
def leadChars : List Char → List Char → Bool
  | [], _ => true
  | _ :: _, [] => false
  | c :: cs, d :: ds => c == d && leadChars cs ds

/-- JavaScript `s.startsWith(pat)`. -/
def strStartsWith (s pat : String) : Bool :=
  leadChars pat.data s.data

/-- JavaScript `s.endsWith(pat)` (case sensitive, like the source). -/
def strEndsWith (s pat : String) : Bool :=
  leadChars pat.data.reverse s.data.reverse

/-- Substring occurrence at the character-list level. -/
def containsChars (pat : List Char) : List Char → Bool
  | [] => leadChars pat []
  | d :: ds => leadChars pat (d :: ds) || containsChars pat ds

/-- JavaScript `s.includes(pat)`. -/
def strIncludes (s pat : String) : Bool :=
  containsChars pat.data s.data

/-! ## Form data model (the `formData` React state of `Form.jsx`) -/

/-- A browser `File` handle as far as the form logic inspects it:
the `name` and the declared media `type`. -/
structure File where
  name : String
  type : String
deriving DecidableEq

/-- The `formData` state object of `Form.jsx`:
`{ projectName, category, techStack, submissionType, repoUrl, file }`.
`category` starts as the sentinel string `"default"`; `submissionType`
is `"zip"` or `"repo"`; `file` is `null` until a file is accepted. -/
structure FormData where
  projectName : String
  category : String
  techStack : List String
  submissionType : String
  repoUrl : String
  file : Option File
deriving DecidableEq

/-- `validateFile` from `Form.jsx`: store the file into the draft iff
`file.name.endsWith('.zip') || file.type.includes('zip') ||
file.type.includes('compressed')`; otherwise alert and leave the draft
alone.  Returns the new draft and the alert message, if any. -/
def validateFile (fd : FormData) (f : File) : FormData × Option String :=
  if strEndsWith f.name ".zip" || strIncludes f.type "zip"
      || strIncludes f.type "compressed" then
    ({ fd with file := some f }, none)
  else
    (fd, some "Please upload a .zip file")

/-- `toggleTech` from `Form.jsx`: remove the entry if present
(via `filter(t => t !== tech)`), otherwise append it at the end. -/
def toggleTech (fd : FormData) (tech : String) : FormData :=
  if fd.techStack.contains tech then
    { fd with techStack := fd.techStack.filter (fun t => t != tech) }
  else
    { fd with techStack := fd.techStack ++ [tech] }

/-- The early-return validation chain at the top of `handleSubmit`:
the first failing check yields its alert message; `none` means the
submission proceeds to the network call. -/
def validateDraft (fd : FormData) : Option String :=
  if fd.category == "default" then
    some "Please select a project type."
  else if fd.techStack.length == 0 then
    some "Please select at least one technology."
  else if fd.submissionType == "zip" then
    (if fd.file.isNone then some "Please upload a zip file." else none)
  else
    (if fd.repoUrl == "" || !(strStartsWith fd.repoUrl "http") then
      some "Please enter a valid Git repository URL."
    else none)

/-- A multipart form part value: a string field or a file blob
(`data.append` receives `formData.file` directly, hence the option). -/
inductive PartValue where
  | str (s : String)
  | blob (f : Option File)
deriving DecidableEq

/-- The `new FormData()` body built by `handleSubmit` once validation has
passed: `project_type`, `description` (projectName ++ " | Tech: " ++ the
comma-joined tech stack), and exactly one of `single_zip` / `git_url`
depending on `submissionType`. -/
def buildRequest (fd : FormData) : List (String × PartValue) :=
  [("project_type", PartValue.str fd.category),
   ("description",
     PartValue.str
       (fd.projectName ++ " | Tech: " ++ String.intercalate ", " fd.techStack))]
  ++ (if fd.submissionType == "zip" then
        [("single_zip", PartValue.blob fd.file)]
      else
        [("git_url", PartValue.str fd.repoUrl)])

/-- Outcome of the `fetch`/`res.json()` pair in `handleSubmit`:
`failure` covers a transport error or malformed JSON (either await
throwing); `ok jobId` is a parsed JSON object whose `job_id` field is the
given optional string (`none` when the field is absent). -/
inductive FetchOutcome where
  | failure
  | ok (jobId : Option String)
deriving DecidableEq

/-- Observable outcome of one `handleSubmit` invocation: the alerts shown,
the request body if a network call was issued, the navigation target if
`window.location.href` was assigned, and the resulting draft state
(`handleSubmit` contains no `setFormData`, so the draft passes through). -/
structure SubmitOutcome where
  alerts : List String
  request : Option (List (String × PartValue))
  navigation : Option String
  draft : FormData
deriving DecidableEq

/-- `handleSubmit` from `Form.jsx` as a function of the draft and the
network outcome: validation first (early returns with a single alert and
no fetch); then the fetch is issued with the built body; a response whose
`job_id` is absent or falsy (empty string) throws into the catch branch,
which alerts "Submission failed."; a truthy `job_id` navigates to
`/verify?job_id=` followed by exactly that identifier. -/
def handleSubmit (fd : FormData) (net : FetchOutcome) : SubmitOutcome :=
  match validateDraft fd with
  | some msg => ⟨[msg], none, none, fd⟩
  | none =>
    let body := buildRequest fd
    match net with
    | FetchOutcome.failure => ⟨["Submission failed."], some body, none, fd⟩
    | FetchOutcome.ok none => ⟨["Submission failed."], some body, none, fd⟩
    | FetchOutcome.ok (some j) =>
      if j == "" then ⟨["Submission failed."], some body, none, fd⟩
      else ⟨[], some body, some ("/verify?job_id=" ++ j), fd⟩

/-- Number of parts of a built body carrying a given key. -/
def countKey (body : List (String × PartValue)) (k : String) : Nat :=
  (body.filter (fun p => p.1 == k)).length

/-- First part of a built body carrying a given key. -/
def lookupPart (body : List (String × PartValue)) (k : String) : Option PartValue :=
  body.lookup k

example : validateDraft ⟨"A", "frontend", ["React"], "zip", "", some ⟨"a.zip", "application/zip"⟩⟩ = none := by decide
example : (handleSubmit ⟨"A", "frontend", ["React"], "repo", "httpfoo", none⟩ (FetchOutcome.ok (some "x"))).navigation = some "/verify?job_id=x" := by decide
example : strEndsWith "A.ZIP" ".zip" = false := by decide
example : strIncludes "application/x-zip-compressed" "compressed" = true := by decide

/-! ## Result poller (`Verify.jsx`, embedded in `src/frontend/README.md`)

The component runs, on mount,
`setInterval(async () => { fetch; json; if (status !== "processing")
{ setResult(json); clearInterval(timer); } }, 3000)`.
We give it an event-loop small-step semantics.  Two event kinds exist:
a timer tick (fires every 3000 ms while the interval is active, issuing
the next status request) and the arrival of a response to an issued
request (its callback resumes; a non-`"processing"` status stores the
result and clears the interval).  Events are processed one per step in
time order; an arrival due no later than the next tick is processed
before it. -/

/-- A JSON scalar value appearing in a poll response. -/
inductive JVal where
  | s (v : String)
  | n (v : Int)
  | b (v : Bool)
  | nullv
deriving DecidableEq

/-- A poll response: a JSON object, i.e. a list of key/value fields. -/
structure JobResult where
  fields : List (String × JVal)
deriving DecidableEq

/-- The test `json.status !== "processing"` negated: the response's
`status` field exists and is exactly the string `"processing"`. -/
def isProcessing (r : JobResult) : Bool :=
  r.fields.lookup "status" == some (JVal.s "processing")

/-- Environment of a poll run: the response the collaborator gives to the
k-th issued request, and that request's latency in ms (arrival time =
issue time + latency). -/
structure PollerEnv where
  resp : Nat → JobResult
  lat : Nat → Nat

/-- Event-loop state of the `Verify` component:
`now` the current time, `timerActive` whether the interval has not been
cleared, `nextTick` the time the interval next fires, `issued` how many
requests have been issued, `issueTimes` the times they were issued,
`inFlight` the issued requests whose responses have not yet been
processed (request index, arrival time), and `result` the `setResult`
state (initially `null`). -/
structure PState where
  now : Nat
  timerActive : Bool
  nextTick : Nat
  issued : Nat
  issueTimes : List Nat
  inFlight : List (Nat × Nat)
  result : Option JobResult
deriving DecidableEq

/-- State right after the component mounts with a job id: interval armed
for 3000 ms, nothing issued, no result. -/
def pollInit : PState :=
  ⟨0, true, 3000, 0, [], [], none⟩

/-- Earliest pending arrival (first in issue order among equal times). -/
def nextArrival : List (Nat × Nat) → Option (Nat × Nat)
  | [] => none
  | (k, t) :: rest =>
    match nextArrival rest with
    | none => some (k, t)
    | some (k2, t2) => if t ≤ t2 then some (k, t) else some (k2, t2)

/-- Remove the first occurrence of a pending arrival. -/
def removeArr : List (Nat × Nat) → Nat → Nat → List (Nat × Nat)
  | [], _, _ => []
  | (k2, t2) :: rest, k, t =>
    if k2 == k && t2 == t then rest else (k2, t2) :: removeArr rest k t

/-- Process the arrival of request `k` at time `t`: the callback resumes
after its awaits; if the status is not `"processing"` it stores the full
response via `setResult` and clears the interval. -/
def processArrival (env : PollerEnv) (s : PState) (k t : Nat) : PState :=
  let s1 := { s with now := t, inFlight := removeArr s.inFlight k t }
  if isProcessing (env.resp k) then s1
  else { s1 with result := some (env.resp k), timerActive := false }

/-- Process a timer tick: the interval callback starts, issuing status
request number `s.issued`; the interval re-arms 3000 ms later. -/
def processTick (env : PollerEnv) (s : PState) : PState :=
  { s with
    now := s.nextTick,
    inFlight := s.inFlight ++ [(s.issued, s.nextTick + env.lat s.issued)],
    issued := s.issued + 1,
    issueTimes := s.issueTimes ++ [s.nextTick],
    nextTick := s.nextTick + 3000 }

/-- One event-loop step: the earliest event is processed; with no pending
arrival and a cleared interval the state is quiescent. -/
def pollStep (env : PollerEnv) (s : PState) : PState :=
  match nextArrival s.inFlight with
  | none => if s.timerActive then processTick env s else s
  | some (k, t) =>
    if s.timerActive then
      (if t ≤ s.nextTick then processArrival env s k t else processTick env s)
    else processArrival env s k t

/-- Run the poller event loop for `n` events. -/
def runPoller (env : PollerEnv) (s : PState) : Nat → PState
  | 0 => s
  | n + 1 => pollStep env (runPoller env s n)

/-- Consecutive entries of the list are at least `g` apart. -/
def gapsAtLeast (g : Nat) : List Nat → Bool
  | a :: b :: rest => (a + g ≤ b) && gapsAtLeast g (b :: rest)
  | _ => true

/-- The at-most-one-in-flight invariant used for the prompt-response
analysis: at most one request pending, and while the interval is active a
pending arrival is due before the next tick. -/
def oneFlight (s : PState) : Prop :=
  s.inFlight = [] ∨
    ∃ k t, s.inFlight = [(k, t)] ∧ (s.timerActive = true → t < s.nextTick)

/-- Poll requests the system issues after one submit action: the poller
mounts only when the submit handler navigated to the verify context. -/
def submitThenPollIssued (fd : FormData) (net : FetchOutcome)
    (env : PollerEnv) (n : Nat) : Nat :=
  match (handleSubmit fd net).navigation with
  | none => 0
  | some _ => (runPoller env pollInit n).issued

/-- `{status:"processing"}`. -/
def jrProcessing : JobResult := ⟨[("status", JVal.s "processing")]⟩

/-- `{status:"completed", score:42}`. -/
def jrDone : JobResult := ⟨[("status", JVal.s "completed"), ("score", JVal.n 42)]⟩

/-- Environment of the specification's three-response scenario: two
`processing` responses, then the completed one; prompt (1 ms) responses. -/
def env2 : PollerEnv :=
  ⟨fun k => if k < 2 then jrProcessing else jrDone, fun _ => 1⟩

/-- The quiescent state the three-response scenario reaches. -/
def finalS : PState :=
  ⟨9001, false, 12000, 3, [3000, 6000, 9000], [], some jrDone⟩

example : runPoller env2 pollInit 6 = finalS := by decide
example : pollStep env2 finalS = finalS := by decide

/-- Environment where every response is `processing` and takes 4000 ms:
slower than one interval period. -/
def envSlow : PollerEnv := ⟨fun _ => jrProcessing, fun _ => 4000⟩

/-- Environment where every response is `processing` and prompt (1 ms). -/
def envPrompt : PollerEnv := ⟨fun _ => jrProcessing, fun _ => 1⟩

example : (runPoller envSlow pollInit 2).inFlight = [(0, 7000), (1, 10000)] := by decide

/-! ## Helper lemmas -/

/-- String append acts as list append on the character data. -/
lemma strDataAppend (s t : String) : (s ++ t).data = s.data ++ t.data := rfl

/-- A character list is an initial segment of itself extended. -/
lemma leadChars_append (p r : List Char) : leadChars p (p ++ r) = true := by
  induction p with
  | nil => rfl
  | cons c cs ih => simp [leadChars, ih]

/-- Once validation passes, `handleSubmit` issues exactly the built
request, whatever the network outcome. -/
lemma request_of_valid (fd : FormData) (net : FetchOutcome)
    (hv : validateDraft fd = none) :
    (handleSubmit fd net).request = some (buildRequest fd) := by
  rcases net with _ | jid
  · simp [handleSubmit, hv]
  · rcases jid with _ | j
    · simp [handleSubmit, hv]
    · simp only [handleSubmit, hv]
      split <;> rfl

/-! ## Claims about the Submission Assembler -/

/-- C3: any draft failing a validation rule of handleSubmit's chain gets
exactly the corresponding single alert and no network call, the draft
left unchanged; the checks run in the order category, techStack, then the
mode-specific field, the first failure aborting (each clause below
assumes exactly the earlier checks passed). -/
theorem validationOrderNoSend (fd : FormData) (net : FetchOutcome) :
    (fd.category = "default" →
      handleSubmit fd net = ⟨["Please select a project type."], none, none, fd⟩) ∧
    (fd.category ≠ "default" → fd.techStack = [] →
      handleSubmit fd net = ⟨["Please select at least one technology."], none, none, fd⟩) ∧
    (fd.category ≠ "default" → fd.techStack ≠ [] → fd.submissionType = "zip" →
      fd.file = none →
      handleSubmit fd net = ⟨["Please upload a zip file."], none, none, fd⟩) ∧
    (fd.category ≠ "default" → fd.techStack ≠ [] → fd.submissionType ≠ "zip" →
      (fd.repoUrl = "" ∨ strStartsWith fd.repoUrl "http" = false) →
      handleSubmit fd net = ⟨["Please enter a valid Git repository URL."], none, none, fd⟩) ∧
    (∀ m, validateDraft fd = some m →
      (handleSubmit fd net).request = none ∧ (handleSubmit fd net).alerts = [m] ∧
      (handleSubmit fd net).draft = fd) := by
  refine ⟨?_, ?_, ?_, ?_, ?_⟩
  · intro h1
    have hv : validateDraft fd = some "Please select a project type." := by
      simp [validateDraft, h1]
    simp [handleSubmit, hv]
  · intro h1 h2
    have hv : validateDraft fd = some "Please select at least one technology." := by
      simp [validateDraft, h1, h2]
    simp [handleSubmit, hv]
  · intro h1 h2 h3 h4
    have hv : validateDraft fd = some "Please upload a zip file." := by
      simp [validateDraft, h1, h2, h3, h4]
    simp [handleSubmit, hv]
  · intro h1 h2 h3 h4
    have hv : validateDraft fd = some "Please enter a valid Git repository URL." := by
      rcases h4 with h4 | h4 <;> simp [validateDraft, h1, h2, h3, h4]
    simp [handleSubmit, hv]
  · intro m hm
    simp [handleSubmit, hm]

/-- C3 witness: a draft with the sentinel category and one failing the
repository-URL rule, both aborted locally. -/
theorem validationOrderNoSendWitness :
    handleSubmit ⟨"P", "default", ["Go"], "zip", "", none⟩ FetchOutcome.failure
      = ⟨["Please select a project type."], none, none,
         ⟨"P", "default", ["Go"], "zip", "", none⟩⟩ ∧
    handleSubmit ⟨"P", "backend", ["Go"], "repo", "", none⟩ FetchOutcome.failure
      = ⟨["Please enter a valid Git repository URL."], none, none,
         ⟨"P", "backend", ["Go"], "repo", "", none⟩⟩ :=
  ⟨(validationOrderNoSend _ _).1 rfl,
   (validationOrderNoSend ⟨"P", "backend", ["Go"], "repo", "", none⟩
      FetchOutcome.failure).2.2.2.1 (by decide) (by decide) (by decide)
      (Or.inl rfl)⟩

/-- C4: for a draft that passed validation, the built request carries
`single_zip` and not `git_url` in archive mode, the inverse in repository
mode: exactly one of the two parts, never both, never neither. -/
theorem exactlyOnePayloadPart (fd : FormData) (_hv : validateDraft fd = none) :
    (fd.submissionType = "zip" →
      countKey (buildRequest fd) "single_zip" = 1 ∧
      countKey (buildRequest fd) "git_url" = 0) ∧
    (fd.submissionType = "repo" →
      countKey (buildRequest fd) "git_url" = 1 ∧
      countKey (buildRequest fd) "single_zip" = 0) ∧
    ((fd.submissionType = "zip" ∨ fd.submissionType = "repo") →
      countKey (buildRequest fd) "single_zip" + countKey (buildRequest fd) "git_url" = 1) := by
  have hzip : fd.submissionType = "zip" →
      countKey (buildRequest fd) "single_zip" = 1 ∧
      countKey (buildRequest fd) "git_url" = 0 := by
    intro h
    constructor <;> (simp only [buildRequest, countKey, h]; rfl)
  have hrepo : fd.submissionType = "repo" →
      countKey (buildRequest fd) "git_url" = 1 ∧
      countKey (buildRequest fd) "single_zip" = 0 := by
    intro h
    constructor <;> (simp only [buildRequest, countKey, h]; rfl)
  refine ⟨hzip, hrepo, ?_⟩
  rintro (h | h)
  · rw [(hzip h).1, (hzip h).2]
  · rw [(hrepo h).1, (hrepo h).2]

/-- C4 witness: concrete archive-mode and repository-mode drafts. -/
theorem exactlyOnePayloadPartWitness :
    countKey (buildRequest ⟨"P", "frontend", ["React"], "zip", "", some ⟨"a.zip", "application/zip"⟩⟩) "single_zip" = 1 ∧
    countKey (buildRequest ⟨"P", "backend", ["Go"], "repo", "https://x", none⟩) "git_url" = 1 ∧
    countKey (buildRequest ⟨"P", "backend", ["Go"], "repo", "https://x", none⟩) "single_zip" = 0 :=
  ⟨((exactlyOnePayloadPart _ (by decide)).1 rfl).1,
   ((exactlyOnePayloadPart ⟨"P", "backend", ["Go"], "repo", "https://x", none⟩
      (by decide)).2.1 rfl).1,
   ((exactlyOnePayloadPart ⟨"P", "backend", ["Go"], "repo", "https://x", none⟩
      (by decide)).2.1 rfl).2⟩

/-- C1: on submit of a valid draft, a response with a non-empty string
`job_id` navigates to `/verify?job_id=` followed by exactly that
identifier; a response lacking `job_id` (or carrying an empty one), a
malformed response or a transport failure yields the single generic
alert, no navigation, an unchanged draft, and zero poll requests. -/
theorem submitHandoffOrFailure (fd : FormData) (net : FetchOutcome)
    (hv : validateDraft fd = none) :
    (∀ j, j ≠ "" → net = FetchOutcome.ok (some j) →
      handleSubmit fd net =
        ⟨[], some (buildRequest fd), some ("/verify?job_id=" ++ j), fd⟩) ∧
    ((net = FetchOutcome.failure ∨ net = FetchOutcome.ok none ∨
        net = FetchOutcome.ok (some "")) →
      handleSubmit fd net = ⟨["Submission failed."], some (buildRequest fd), none, fd⟩ ∧
      ∀ env n, submitThenPollIssued fd net env n = 0) := by
  constructor
  · intro j hj hnet
    subst hnet
    simp [handleSubmit, hv, hj]
  · intro hcase
    have hres : handleSubmit fd net
        = ⟨["Submission failed."], some (buildRequest fd), none, fd⟩ := by
      rcases hcase with h | h | h <;> subst h <;> simp [handleSubmit, hv]
    exact ⟨hres, fun env n => by simp [submitThenPollIssued, hres]⟩

/-- C1 witness: a valid archive draft; the `"abc-123"` handoff and the
missing-`job_id` failure. -/
theorem submitHandoffOrFailureWitness :
    handleSubmit ⟨"My App", "frontend", ["React"], "zip", "", some ⟨"a.zip", "application/zip"⟩⟩
        (FetchOutcome.ok (some "abc-123"))
      = ⟨[], some (buildRequest ⟨"My App", "frontend", ["React"], "zip", "", some ⟨"a.zip", "application/zip"⟩⟩),
         some "/verify?job_id=abc-123",
         ⟨"My App", "frontend", ["React"], "zip", "", some ⟨"a.zip", "application/zip"⟩⟩⟩ ∧
    (handleSubmit ⟨"My App", "frontend", ["React"], "zip", "", some ⟨"a.zip", "application/zip"⟩⟩
        (FetchOutcome.ok none)).alerts = ["Submission failed."] ∧
    submitThenPollIssued ⟨"My App", "frontend", ["React"], "zip", "", some ⟨"a.zip", "application/zip"⟩⟩
        (FetchOutcome.ok none) envSlow 5 = 0 :=
  ⟨(submitHandoffOrFailure _ _ (by decide)).1 "abc-123" (by decide) rfl,
   by rw [((submitHandoffOrFailure ⟨"My App", "frontend", ["React"], "zip", "", some ⟨"a.zip", "application/zip"⟩⟩
        (FetchOutcome.ok none) (by decide)).2 (Or.inr (Or.inl rfl))).1],
   ((submitHandoffOrFailure ⟨"My App", "frontend", ["React"], "zip", "", some ⟨"a.zip", "application/zip"⟩⟩
        (FetchOutcome.ok none) (by decide)).2 (Or.inr (Or.inl rfl))).2 envSlow 5⟩

/-- A repository draft whose URL starts with `http` but with neither of
the two real URL schemes. -/
def fdHttpx : FormData := ⟨"P", "backend", ["Go"], "repo", "httpfoo", none⟩

/-- C7 counterexample: `"httpfoo"` begins with neither `http://` nor
`https://`, yet validation passes and the submission is sent with no
validation alert, refuting the claim that every such URL is rejected. -/
theorem repoUrlSchemeCounterexample :
    strStartsWith fdHttpx.repoUrl "http://" = false ∧
    strStartsWith fdHttpx.repoUrl "https://" = false ∧
    fdHttpx.repoUrl ≠ "" ∧
    validateDraft fdHttpx = none ∧
    (handleSubmit fdHttpx (FetchOutcome.ok (some "j1"))).request
      = some (buildRequest fdHttpx) ∧
    (handleSubmit fdHttpx (FetchOutcome.ok (some "j1"))).alerts = [] := by
  decide

/-- C7 amended: with the earlier checks passed, repository-mode
submission proceeds past validation exactly when `repoUrl` is non-empty
and begins with the four characters `http` (so strings such as
`"httpfoo"` also pass); whenever `repoUrl` does not begin with `http`,
the validation alert is reported and nothing is sent. -/
theorem repoUrlHttpPrefixGate (fd : FormData) (net : FetchOutcome)
    (h1 : fd.category ≠ "default") (h2 : fd.techStack ≠ [])
    (h3 : fd.submissionType ≠ "zip") :
    ((handleSubmit fd net).request ≠ none ↔
      (fd.repoUrl ≠ "" ∧ strStartsWith fd.repoUrl "http" = true)) ∧
    (strStartsWith fd.repoUrl "http" = false →
      (handleSubmit fd net).alerts = ["Please enter a valid Git repository URL."] ∧
      (handleSubmit fd net).request = none) := by
  by_cases hZ : fd.repoUrl = ""
  · have hv : validateDraft fd = some "Please enter a valid Git repository URL." := by
      simp [validateDraft, h1, h2, h3, hZ]
    constructor
    · simp [handleSubmit, hv, hZ]
    · intro _
      simp [handleSubmit, hv]
  · cases hS : strStartsWith fd.repoUrl "http"
    · have hv : validateDraft fd = some "Please enter a valid Git repository URL." := by
        simp [validateDraft, h1, h2, h3, hS]
      constructor
      · simp [handleSubmit, hv, hS]
      · intro _
        simp [handleSubmit, hv]
    · have hv : validateDraft fd = none := by
        simp [validateDraft, h1, h2, h3, hZ, hS]
      constructor
      · simp [request_of_valid fd net hv, hZ, hS]
      · intro habs
        exact absurd habs (by decide)

/-- C7 amended witness: an `ftp://` URL is rejected with the URL alert
and no request; the counterexample draft's `httpfoo` URL passes. -/
theorem repoUrlHttpPrefixGateWitness :
    (handleSubmit ⟨"P", "backend", ["Go"], "repo", "ftp://x", none⟩ FetchOutcome.failure).alerts
        = ["Please enter a valid Git repository URL."] ∧
    (handleSubmit ⟨"P", "backend", ["Go"], "repo", "ftp://x", none⟩ FetchOutcome.failure).request = none ∧
    (handleSubmit fdHttpx FetchOutcome.failure).request ≠ none :=
  ⟨((repoUrlHttpPrefixGate ⟨"P", "backend", ["Go"], "repo", "ftp://x", none⟩
      FetchOutcome.failure (by decide) (by decide) (by decide)).2 (by decide)).1,
   ((repoUrlHttpPrefixGate ⟨"P", "backend", ["Go"], "repo", "ftp://x", none⟩
      FetchOutcome.failure (by decide) (by decide) (by decide)).2 (by decide)).2,
   ((repoUrlHttpPrefixGate fdHttpx FetchOutcome.failure
      (by decide) (by decide) (by decide)).1).2 ⟨by decide, by decide⟩⟩

/-- Modelled from the amended claim's words: a selected file is a zip
archive when its name ends in `.zip` case-sensitively or its declared
media type contains `zip` or `compressed`. -/
def zipAcceptedSpec (f : File) : Bool :=
  strEndsWith f.name ".zip" || strIncludes f.type "zip" || strIncludes f.type "compressed"

/-- An empty draft used as the pre-selection state. -/
def emptyDraft : FormData := ⟨"", "default", [], "zip", "", none⟩

/-- C8 counterexample: a file named `ARCHIVE.ZIP` with no declared media
type is rejected (the suffix check is case-sensitive), so it is not
stored even though the claim says the upper-case suffix is accepted. -/
theorem upperZipRejectedCounterexample :
    (validateFile emptyDraft ⟨"ARCHIVE.ZIP", ""⟩).1.file = none ∧
    (validateFile emptyDraft ⟨"ARCHIVE.ZIP", ""⟩).2 = some "Please upload a .zip file" := by
  decide

/-- C8 amended: a selected file is stored into the draft exactly when its
name ends in `.zip` case-sensitively or its declared media type contains
`zip` or `compressed`; otherwise the draft is returned untouched with the
rejection alert. -/
theorem fileSelectionCharacterization (fd : FormData) (f : File) :
    (zipAcceptedSpec f = true ∧ validateFile fd f = ({ fd with file := some f }, none)) ∨
    (zipAcceptedSpec f = false ∧ validateFile fd f = (fd, some "Please upload a .zip file")) := by
  have e : validateFile fd f
      = if zipAcceptedSpec f = true then ({ fd with file := some f }, none)
        else (fd, some "Please upload a .zip file") := rfl
  cases h : zipAcceptedSpec f
  · right
    refine ⟨rfl, ?_⟩
    rw [e, h]
    simp
  · left
    refine ⟨rfl, ?_⟩
    rw [e, h]
    simp

/-- C9: whenever file selection reports the rejection alert, the draft
comes back exactly as it was, and the alert is the fixed zip message. -/
theorem rejectionPreservesDraft (fd : FormData) (f : File) (m : String)
    (h : (validateFile fd f).2 = some m) :
    (validateFile fd f).1 = fd ∧ m = "Please upload a .zip file" := by
  by_cases hc : (strEndsWith f.name ".zip" || strIncludes f.type "zip"
      || strIncludes f.type "compressed") = true
  · simp [validateFile, hc] at h
  · simp [validateFile, hc] at h ⊢
    exact h.symm

/-- C9 witness: rejecting a text file over a draft that already holds an
accepted archive leaves that draft intact. -/
theorem rejectionPreservesDraftWitness :
    (validateFile ⟨"P", "frontend", ["React"], "zip", "", some ⟨"a.zip", "application/zip"⟩⟩
        ⟨"notes.txt", "text/plain"⟩).1
      = ⟨"P", "frontend", ["React"], "zip", "", some ⟨"a.zip", "application/zip"⟩⟩ :=
  (rejectionPreservesDraft _ ⟨"notes.txt", "text/plain"⟩ "Please upload a .zip file"
    (by decide)).1

/-- C10: the built request's `description` is exactly the project name,
the literal `" | Tech: "`, and the tech stack joined by `", "` in list
(insertion) order; with an empty project name the description begins with
`" | Tech: "`; toggling an absent technology appends it at the end, so
list order is insertion order. -/
theorem descriptionWireFormat (fd : FormData) :
    lookupPart (buildRequest fd) "description"
      = some (PartValue.str
          (fd.projectName ++ " | Tech: " ++ String.intercalate ", " fd.techStack)) ∧
    (fd.projectName = "" →
      strStartsWith (fd.projectName ++ " | Tech: " ++ String.intercalate ", " fd.techStack)
        " | Tech: " = true) ∧
    (∀ t, fd.techStack.contains t = false →
      (toggleTech fd t).techStack = fd.techStack ++ [t]) := by
  refine ⟨rfl, ?_, ?_⟩
  · intro h
    rw [h, show ("" : String) ++ " | Tech: " = " | Tech: " from rfl]
    simp only [strStartsWith, strDataAppend]
    exact leadChars_append _ _
  · intro t ht
    have ht2 : ¬ (t ∈ fd.techStack) := by simpa using ht
    simp [toggleTech, ht2]

/-- C10 witness: concrete description and a toggle-in at the tail. -/
theorem descriptionWireFormatWitness :
    lookupPart (buildRequest ⟨"A", "frontend", ["React", "Go"], "zip", "", none⟩) "description"
      = some (PartValue.str "A | Tech: React, Go") ∧
    strStartsWith ("" ++ " | Tech: " ++ String.intercalate ", " (["React", "Go"] : List String))
      " | Tech: " = true ∧
    (toggleTech ⟨"A", "frontend", ["React", "Go"], "zip", "", none⟩ "Rust").techStack
      = ["React", "Go", "Rust"] :=
  ⟨(descriptionWireFormat ⟨"A", "frontend", ["React", "Go"], "zip", "", none⟩).1,
   (descriptionWireFormat ⟨"", "frontend", ["React", "Go"], "zip", "", none⟩).2.1 rfl,
   (descriptionWireFormat ⟨"A", "frontend", ["React", "Go"], "zip", "", none⟩).2.2 "Rust" (by decide)⟩

/-! ## Claims about the Result Poller -/

/-- A fixed point of the event loop stays fixed for any number of steps. -/
lemma runPollerFix (env : PollerEnv) (s : PState) (h : pollStep env s = s) :
    ∀ n, runPoller env s n = s := by
  intro n
  induction n with
  | zero => rfl
  | succ n ih =>
    show pollStep env (runPoller env s n) = s
    rw [ih, h]

/-- Running `m + n` events is running `m`, then `n` more. -/
lemma runPollerAdd (env : PollerEnv) (s : PState) (m n : Nat) :
    runPoller env s (m + n) = runPoller env (runPoller env s m) n := by
  induction n with
  | zero => rfl
  | succ n ih =>
    show pollStep env (runPoller env s (m + n)) = _
    rw [ih]
    rfl

/-- With the interval cleared, one event-loop step never issues a request,
never re-arms the timer, and can change the result only to a terminal one. -/
lemma stepFrozen (env : PollerEnv) (s : PState) (hT : s.timerActive = false) :
    (pollStep env s).issued = s.issued ∧
    (pollStep env s).issueTimes = s.issueTimes ∧
    (pollStep env s).timerActive = false ∧
    ((pollStep env s).result = s.result ∨
      ∃ r, (pollStep env s).result = some r ∧ isProcessing r = false) := by
  cases hn : nextArrival s.inFlight with
  | none => simp [pollStep, hn, hT]
  | some kt =>
    obtain ⟨k, t⟩ := kt
    have hstep : pollStep env s = processArrival env s k t := by
      simp [pollStep, hn, hT]
    rw [hstep]
    cases hp : isProcessing (env.resp k) with
    | false =>
      refine ⟨?_, ?_, ?_, Or.inr ⟨env.resp k, ?_, hp⟩⟩ <;> simp [processArrival, hp]
    | true =>
      refine ⟨?_, ?_, ?_, Or.inl ?_⟩ <;> simp [processArrival, hp, hT]

/-- From any state with the interval cleared and a terminal result
stored, the whole future keeps the request count, the issue times and the
cleared interval, and always shows some terminal result. -/
lemma frozenRun (env : PollerEnv) (s : PState) (hT : s.timerActive = false)
    (hR : ∃ r, s.result = some r ∧ isProcessing r = false) :
    ∀ n, (runPoller env s n).issued = s.issued ∧
         (runPoller env s n).issueTimes = s.issueTimes ∧
         (runPoller env s n).timerActive = false ∧
         ∃ r, (runPoller env s n).result = some r ∧ isProcessing r = false := by
  intro n
  induction n with
  | zero => exact ⟨rfl, rfl, hT, hR⟩
  | succ n ih =>
    obtain ⟨h1, h2, h3, h4⟩ := ih
    have hs := stepFrozen env (runPoller env s n) h3
    have hrw : runPoller env s (n + 1) = pollStep env (runPoller env s n) := rfl
    refine ⟨?_, ?_, ?_, ?_⟩
    · rw [hrw, hs.1, h1]
    · rw [hrw, hs.2.1, h2]
    · rw [hrw]; exact hs.2.2.1
    · rcases hs.2.2.2 with he | ⟨r, hr1, hr2⟩
      · obtain ⟨r, hr, hp⟩ := h4
        exact ⟨r, by rw [hrw, he, hr], hp⟩
      · exact ⟨r, by rw [hrw]; exact hr1, hr2⟩

/-- C5: when the pending response chosen by the event loop has a status
other than `"processing"`, the step processing it stores that full
response and clears the interval, and from then on — for any number of
further events, i.e. even if the poller is kept alive indefinitely — no
further request is ever issued and a terminal result stays on display. -/
theorem terminalQuiescence (env : PollerEnv) (s : PState) (k t : Nat)
    (harr : nextArrival s.inFlight = some (k, t))
    (hsel : s.timerActive = true → t ≤ s.nextTick)
    (hterm : isProcessing (env.resp k) = false) :
    (pollStep env s).result = some (env.resp k) ∧
    (pollStep env s).timerActive = false ∧
    ∀ n, (runPoller env (pollStep env s) n).issued = s.issued ∧
         (runPoller env (pollStep env s) n).issueTimes = s.issueTimes ∧
         (runPoller env (pollStep env s) n).timerActive = false ∧
         ∃ r, (runPoller env (pollStep env s) n).result = some r ∧
              isProcessing r = false := by
  have hstep : pollStep env s = processArrival env s k t := by
    cases hA : s.timerActive
    · simp [pollStep, harr, hA]
    · simp [pollStep, harr, hA, hsel hA]
  have h1 : (pollStep env s).result = some (env.resp k) := by
    rw [hstep]; simp [processArrival, hterm]
  have h2 : (pollStep env s).timerActive = false := by
    rw [hstep]; simp [processArrival, hterm]
  have h3 : (pollStep env s).issued = s.issued := by
    rw [hstep]; simp [processArrival, hterm]
  have h4 : (pollStep env s).issueTimes = s.issueTimes := by
    rw [hstep]; simp [processArrival, hterm]
  refine ⟨h1, h2, fun n => ?_⟩
  have hf := frozenRun env (pollStep env s) h2 ⟨env.resp k, h1, hterm⟩ n
  rw [h3] at hf
  rw [h4] at hf
  exact hf

/-- Environment where every response is terminal, with prompt latency. -/
def envW : PollerEnv := ⟨fun _ => jrDone, fun _ => 1⟩

/-- The poller state right after its first tick under `envW`. -/
def sW : PState := ⟨3000, true, 6000, 1, [3000], [(0, 3001)], none⟩

/-- C5 witness: processing the terminal arrival stores the completed
result, and five further events issue nothing new. -/
theorem terminalQuiescenceWitness :
    (pollStep envW sW).result = some jrDone ∧
    (runPoller envW (pollStep envW sW) 5).issued = 1 ∧
    (runPoller envW (pollStep envW sW) 5).timerActive = false :=
  have h := terminalQuiescence envW sW 0 3001 (by decide) (fun _ => by decide)
    (by decide)
  ⟨h.1, (h.2.2 5).1, (h.2.2 5).2.2.1⟩

/-- C2: under the response sequence processing, processing, completed
(with prompt responses), the run reaches — after its six events — the
quiescent state `finalS` and stays there forever: exactly 3 requests,
issued at 3000, 6000 and 9000 ms (hence at least 3000 ms apart), no
result shown before the third response, and the full
`{status:"completed", score:42}` object as the final displayed result. -/
theorem pollerThreeResponseScenario (n : Nat) :
    (6 ≤ n → runPoller env2 pollInit n = finalS) ∧
    (n < 6 → (runPoller env2 pollInit n).result = none ∧
             (runPoller env2 pollInit n).timerActive = true ∧
             (runPoller env2 pollInit n).issued ≤ 3) ∧
    finalS.issued = 3 ∧ finalS.issueTimes = [3000, 6000, 9000] ∧
    gapsAtLeast 3000 finalS.issueTimes = true ∧
    finalS.result = some jrDone := by
  refine ⟨?_, ?_, by decide, by decide, by decide, by decide⟩
  · intro h
    obtain ⟨k, rfl⟩ := Nat.exists_eq_add_of_le h
    rw [runPollerAdd]
    rw [show runPoller env2 pollInit 6 = finalS from by decide]
    exact runPollerFix env2 finalS (by decide) k
  · intro h
    interval_cases n <;> refine ⟨by decide, by decide, by decide⟩

/-- C2 witness: the scenario run evaluated at concrete step counts. -/
theorem pollerThreeResponseScenarioWitness :
    runPoller env2 pollInit 7 = finalS ∧
    (runPoller env2 pollInit 4).result = none :=
  ⟨(pollerThreeResponseScenario 7).1 (by decide),
   ((pollerThreeResponseScenario 4).2.1 (by decide)).1⟩

/-- C6 counterexample: with every response `processing` and 4000 ms slow,
after two events (the ticks at 3000 and 6000 ms) two status requests are
simultaneously in flight, refuting the at-most-one-in-flight claim. -/
theorem twoInFlightCounterexample :
    ¬ ((runPoller envSlow pollInit 2).inFlight.length ≤ 1) := by
  decide

/-- One event-loop step preserves the at-most-one-in-flight invariant
when every response is faster than the 3000 ms period. -/
lemma oneFlightStep (env : PollerEnv) (hlat : ∀ k, env.lat k < 3000)
    (s : PState) (h : oneFlight s) : oneFlight (pollStep env s) := by
  rcases h with h | ⟨k, t, h, hlt⟩
  · cases hA : s.timerActive
    · have he : pollStep env s = s := by simp [pollStep, h, nextArrival, hA]
      rw [he]
      exact Or.inl h
    · have he : pollStep env s = processTick env s := by
        simp [pollStep, h, nextArrival, hA]
      rw [he]
      right
      refine ⟨s.issued, s.nextTick + env.lat s.issued, ?_, ?_⟩
      · simp [processTick, h]
      · intro _
        have := hlat s.issued
        simp [processTick]
        omega
  · have hn : nextArrival s.inFlight = some (k, t) := by rw [h]; rfl
    have hrem : removeArr s.inFlight k t = [] := by rw [h]; simp [removeArr]
    cases hA : s.timerActive
    · have he : pollStep env s = processArrival env s k t := by
        simp [pollStep, hn, hA]
      rw [he]
      left
      cases hp : isProcessing (env.resp k) <;> simp [processArrival, hp, hrem]
    · have hle : t ≤ s.nextTick := Nat.le_of_lt (hlt hA)
      have he : pollStep env s = processArrival env s k t := by
        simp [pollStep, hn, hA, hle]
      rw [he]
      left
      cases hp : isProcessing (env.resp k) <;> simp [processArrival, hp, hrem]

/-- C6 amended: provided every response arrives in under 3000 ms (before
the next tick), at most one status request is in flight at any point of
the run; without that proviso the fixed-period timer issues a new request
while the previous one is still pending, as the counterexample shows. -/
theorem atMostOneInFlightPrompt (env : PollerEnv)
    (hlat : ∀ k, env.lat k < 3000) (n : Nat) :
    (runPoller env pollInit n).inFlight.length ≤ 1 := by
  have hinv : oneFlight (runPoller env pollInit n) := by
    induction n with
    | zero => exact Or.inl rfl
    | succ n ih => exact oneFlightStep env hlat _ ih
  rcases hinv with h | ⟨k, t, h, _⟩ <;> simp [h]

/-- C6 amended witness: a prompt-latency all-processing run after four
events. -/
theorem atMostOneInFlightPromptWitness :
    (runPoller envPrompt pollInit 4).inFlight.length ≤ 1 :=
  atMostOneInFlightPrompt envPrompt (fun _ => by show (1 : Nat) < 3000; decide) 4
